import Mathlib

/-
Verification of the DBC signal decode engine of QTCAN (src/dbc/dbc_classes.cpp).

The definitions below are a shallow embedding of the code.  Machine integers
are modelled as `Int` with explicit wrapping where the C++ stores into
int32_t/int64_t containers; C++ `double` arithmetic is modelled exactly over
`ℚ` (the linear scaling `*factor+bias` is exact), and reinterpretation of a
bit pattern as an IEEE-754 float is modelled by an explicit finite-value
decoder into `ℚ`.  Fallible operations return `Option`/`Except`; the fuelled
decoders return `none` exactly when the recursion budget runs out, so that
termination questions are expressible.
-/

/-- Exact rational arithmetic used to model C++ double arithmetic.  The
library operations on `ℚ` are irreducible in this toolchain, so the
embedding carries its own kernel-reducible copies built on `mkRat`. -/
def intQ (v : Int) : ℚ := mkRat v 1

def natQ (n : Nat) : ℚ := mkRat n 1

def qAdd (a b : ℚ) : ℚ := mkRat (a.num * b.den + b.num * a.den) (a.den * b.den)

def qMul (a b : ℚ) : ℚ := mkRat (a.num * b.num) (a.den * b.den)

def qNeg (a : ℚ) : ℚ := mkRat (-a.num) a.den

/-- Truncation of a rational toward zero, the behavior of a C++ cast from
double to a (wide enough) integer type. -/
def truncQ (q : ℚ) : Int :=
  q.num.sign * ((q.num.natAbs / q.den : ℕ) : Int)

/-- Wrap an integer into the range of a two's-complement int32_t. -/
def toInt32 (v : Int) : Int :=
  (v + 2 ^ 31) % 2 ^ 32 - 2 ^ 31

/-- Wrap an integer into the range of a two's-complement int64_t. -/
def toInt64 (v : Int) : Int :=
  (v + 2 ^ 63) % 2 ^ 64 - 2 ^ 63

/-- Integer power of two as a rational, with negative exponents. -/
def pow2Q (n : Int) : ℚ :=
  if 0 ≤ n then natQ (2 ^ n.toNat) else mkRat 1 (2 ^ (-n).toNat)

/-- Modelled from the spec: "reinterpret that 32-bit pattern as an IEEE-754
single-precision value using a well-defined bit-pattern conversion".  Finite
values are decoded exactly into `ℚ`; the non-finite patterns (exponent field
all ones), which `ℚ` cannot carry, are mapped to 0. -/
def f32FromBits (b : Nat) : ℚ :=
  let e : Nat := (b >>> 23) % 256
  let m : Nat := b % 2 ^ 23
  let mag : ℚ :=
    if e = 0 then qMul (natQ m) (pow2Q (-149))
    else if e = 255 then 0
    else qMul (natQ (2 ^ 23 + m)) (pow2Q ((e : Int) - 150))
  if b.testBit 31 then qNeg mag else mag

/-- Modelled from the spec: reinterpretation of a 64-bit pattern as an
IEEE-754 double-precision value; finite values decoded exactly into `ℚ`,
non-finite patterns (exponent field all ones) mapped to 0. -/
def f64FromBits (b : Nat) : ℚ :=
  let e : Nat := (b >>> 52) % 2048
  let m : Nat := b % 2 ^ 52
  let mag : ℚ :=
    if e = 0 then qMul (natQ m) (pow2Q (-1074))
    else if e = 2047 then 0
    else qMul (natQ (2 ^ 52 + m)) (pow2Q ((e : Int) - 1075))
  if b.testBit 63 then qNeg mag else mag

/-- Modelled stand-in for Qt's `QString::number` on a double: some fixed,
injective-enough rendering of the scaled value.  The claims about the text
path depend only on which branch produced the output, never on the digits
of the rendering itself. -/
def qstringNumber (q : ℚ) : String := toString q

/-- Value of bit `i` of a byte sequence under the DBC global bit numbering
(bit `i` lives in byte `i/8` at intra-byte position `i%8`, 0 = LSB).  Bits
beyond the end of the sequence read as 0, so the extractor can never read
outside the provided bytes. -/
def frameBit (data : List UInt8) (i : Nat) : Nat :=
  if (data.getD (i / 8) 0).toNat.testBit (i % 8) then 1 else 0

/-- Intel (little-endian) extraction: the signal occupies global bit indices
`startBit .. startBit+len-1` in increasing order and bit `startBit` is the
least-significant bit of the result. -/
def intelExtract (data : List UInt8) (startBit len : Nat) : Nat :=
  (List.range len).foldl (fun acc k => acc + frameBit data (startBit + k) * 2 ^ k) 0

/-- Successor of a bit index in the Motorola sawtooth order: within a byte
bits are consumed from high to low, and after bit 8*b the walk continues at
bit 7 of byte b+1 (index 8*b+15). -/
def motNextBit (b : Nat) : Nat :=
  if b % 8 = 0 then b + 15 else b - 1

/-- The list of global bit indices consumed by a Motorola extraction of the
given length starting at `startBit`. -/
def motBitList (startBit : Nat) : Nat → List Nat
  | 0 => []
  | k + 1 => startBit :: motBitList (motNextBit startBit) k

/-- Motorola (sawtooth) extraction: the first consumed bit (at `startBit`)
is the most-significant bit of the result. -/
def motorolaExtract (data : List UInt8) (startBit len : Nat) : Nat :=
  (motBitList startBit len).foldl (fun acc b => acc * 2 + frameBit data b) 0

/-- Two's-complement sign extension of a `len`-bit magnitude: bit `len-1`
is the sign bit; if set, the value is widened with 1s. -/
def signExtend (len : Nat) (mag : Nat) : Int :=
  if mag.testBit (len - 1) then (mag : Int) - 2 ^ len else (mag : Int)

/-- Modelled from the spec: `Utility::processIntegerSignal` (declared in
`utility.h`, which is not under src/).  Per spec §4.1 (`BitExtractor`):
preconditions `length` in 1..64 and `startBit+length ≤ bytes.length*8`,
failing (InsufficientFrameLength) otherwise; Intel or Motorola addressing
producing a length-bit unsigned magnitude; optional two's-complement sign
extension on the highest extracted bit; never reads outside the provided
byte sequence. -/
def processIntegerSignal (data : List UInt8) (startBit len : Nat)
    (intelOrder isSigned : Bool) : Option Int :=
  if 1 ≤ len ∧ len ≤ 64 ∧ startBit + len ≤ data.length * 8 then
    let mag := if intelOrder then intelExtract data startBit len
               else motorolaExtract data startBit len
    some (if isSigned then signExtend len mag else (mag : Int))
  else none

/-- The five DBC signal value types (header dbc_classes.h is not under src/;
constructors named after their uses in dbc_classes.cpp and spec §3). -/
inductive DBC_SIG_VAL_TYPE
  | UNSIGNED_INT
  | SIGNED_INT
  | SP_FLOAT
  | DP_FLOAT
  | STRING
  deriving DecidableEq

/-- One entry of a signal's value table: integer key and description. -/
structure DBC_VAL where
  value : Int
  descript : String
  deriving DecidableEq

/-- One named attribute value (spec §4.4: an ordered list of (name, value)
pairs; the payload type is opaque to the lookup logic). -/
structure DBC_ATTRIBUTE_VALUE where
  attrName : String
  value : String
  deriving DecidableEq

/-- Modelled from the spec: the frame consumed by a decode call is a byte
sequence with its byte length (can_structs.h is not under src/).  The length
is the length of the sequence. -/
structure CANFrame where
  data : List UInt8
  deriving DecidableEq

def CANFrame.len (f : CANFrame) : Nat := f.data.length

/-- Modelled from the spec: a signal definition (dbc_classes.h is not under
src/; fields are the ones read by dbc_classes.cpp).  The C++ back-pointer
chain `parentMessage->multiplexorSignal` is modelled, per spec §9, as an
index `muxorIdx` into an environment list of signal definitions; `none`
models a message whose `multiplexorSignal` is NULL. -/
structure DBC_SIGNAL where
  name : String
  startBit : Nat
  signalSize : Nat
  intelByteOrder : Bool
  isMultiplexed : Bool
  multiplexValue : Int
  valType : DBC_SIG_VAL_TYPE
  factor : ℚ
  bias : ℚ
  unitName : String
  valList : List DBC_VAL
  attributes : List DBC_ATTRIBUTE_VALUE
  muxorIdx : Option Nat
  deriving DecidableEq

/-- A message definition, as far as the attribute lookups are concerned. -/
structure DBC_MESSAGE where
  attributes : List DBC_ATTRIBUTE_VALUE
  deriving DecidableEq

/-- A node definition, as far as the attribute lookups are concerned. -/
structure DBC_NODE where
  attributes : List DBC_ATTRIBUTE_VALUE
  deriving DecidableEq

/-- The failure taxonomy of spec §7.  The C++ reports failure as a bare
`false`; each constructor labels one distinct `return false` site. -/
inductive DBCError
  | MultiplexUnavailable
  | MultiplexMismatch
  | InsufficientFrameLength
  | UnsupportedConversion
  deriving DecidableEq

instance {ε α : Type} [DecidableEq ε] [DecidableEq α] : DecidableEq (Except ε α) :=
  fun x y =>
    match x, y with
    | .error a, .error b =>
      if h : a = b then .isTrue (by rw [h]) else .isFalse (fun hc => h (by cases hc; rfl))
    | .error _, .ok _ => .isFalse (fun hc => Except.noConfusion hc)
    | .ok _, .error _ => .isFalse (fun hc => Except.noConfusion hc)
    | .ok a, .ok b =>
      if h : a = b then .isTrue (by rw [h]) else .isFalse (fun hc => h (by cases hc; rfl))

/-- The tail of DBC_SIGNAL::processAsInt (dbc_classes.cpp lines 151-163):
the frame-length guard, extraction, scaling, and truncation into the int32
out-parameter.  `none` from the spec-modelled extractor (its precondition
is the spec's InsufficientFrameLength failure) maps to that error. -/
def processAsIntTail (sig : DBC_SIGNAL) (frame : CANFrame) : Except DBCError Int :=
  let isSigned := sig.valType == .SIGNED_INT
  if frame.len * 8 < sig.startBit + sig.signalSize then .error .InsufficientFrameLength
  else
    match processIntegerSignal frame.data sig.startBit sig.signalSize sig.intelByteOrder isSigned with
    | none => .error .InsufficientFrameLength
    | some raw =>
      let result := toInt32 raw
      let endResult := qAdd (qMul (intQ result) sig.factor) sig.bias
      .ok (toInt32 (truncQ endResult))

/-- DBC_SIGNAL::processAsInt (dbc_classes.cpp lines 130-164), fuelled: the
multiplex check recurses into the multiplexor's own processAsInt, and the
C++ has no depth bound, so the embedding spends one unit of fuel per
recursive step; `none` means the fuel ran out. -/
def processAsIntF (env : List DBC_SIGNAL) : Nat → DBC_SIGNAL → CANFrame → Option (Except DBCError Int)
  | 0, _, _ => none
  | fuel + 1, sig, frame =>
    if sig.valType = .STRING ∨ sig.valType = .SP_FLOAT ∨ sig.valType = .DP_FLOAT then
      some (.error .UnsupportedConversion)
    else if sig.isMultiplexed then
      match sig.muxorIdx with
      | none => some (.error .MultiplexUnavailable)
      | some i =>
        match env[i]? with
        | none => some (.error .MultiplexUnavailable)
        | some mux =>
          match processAsIntF env fuel mux frame with
          | none => none
          | some (.error e) => some (.error e)
          | some (.ok v) =>
            if v ≠ sig.multiplexValue then some (.error .MultiplexMismatch)
            else some (processAsIntTail sig frame)
    else some (processAsIntTail sig frame)

/-- The multiplex block shared verbatim by the three decode entry points
(dbc_classes.cpp lines 56-65, 140-149, 182-191): if the signal is
multiplexed, the owning message must designate a multiplexor, that signal
is decoded as an integer on the same frame, and its value must equal the
signal's selector. -/
def resolveMultiplex (env : List DBC_SIGNAL) (fuel : Nat) (sig : DBC_SIGNAL)
    (frame : CANFrame) : Option (Except DBCError Unit) :=
  if sig.isMultiplexed then
    match sig.muxorIdx with
    | none => some (.error .MultiplexUnavailable)
    | some i =>
      match env[i]? with
      | none => some (.error .MultiplexUnavailable)
      | some mux =>
        match processAsIntF env fuel mux frame with
        | none => none
        | some (.error e) => some (.error e)
        | some (.ok v) =>
          if v ≠ sig.multiplexValue then some (.error .MultiplexMismatch)
          else some (.ok ())
  else some (.ok ())

/-- The STRING branch of DBC_SIGNAL::processAsText (dbc_classes.cpp lines
45-53): copy `signalSize/8` raw bytes starting at byte `startBit/8` as
character data.  The C++ indexes `frame.data` with no bounds check; bytes
past the end of the sequence are modelled as reading 0. -/
def stringSignalText (sig : DBC_SIGNAL) (frame : CANFrame) : String :=
  String.mk ((List.range (sig.signalSize / 8)).map fun x =>
    Char.ofNat (frame.data.getD (sig.startBit / 8 + x) 0).toNat)

/-- The output-string construction of processAsText (dbc_classes.cpp lines
97-121): `result` is the int64 the value-table keys are compared against,
`endResult` the scaled double that is rendered when no table entry matches. -/
def signalTextOut (sig : DBC_SIGNAL) (result : Int) (endResult : ℚ) : String :=
  let s := sig.name ++ ": "
  match sig.valList.find? (fun v => v.value == result) with
  | some v => s ++ v.descript
  | none => s ++ qstringNumber endResult ++ sig.unitName

/-- The per-type decode of processAsText after the multiplex block
(dbc_classes.cpp lines 67-95 and 97-121).  Note: in the SP_FLOAT and
DP_FLOAT branches the C++ leaves `result` holding the raw extracted bit
pattern (it is only reassigned to the truncated scaled value in the integer
branch), so that is what the value-table lookup compares against. -/
def processAsTextTail (sig : DBC_SIGNAL) (frame : CANFrame) : Except DBCError String :=
  if sig.valType = .SIGNED_INT ∨ sig.valType = .UNSIGNED_INT then
    match processIntegerSignal frame.data sig.startBit sig.signalSize sig.intelByteOrder
        (sig.valType == .SIGNED_INT) with
    | none => .error .InsufficientFrameLength
    | some raw =>
      let r0 := toInt64 raw
      let endResult := qAdd (qMul (intQ r0) sig.factor) sig.bias
      let result := toInt64 (truncQ endResult)
      .ok (signalTextOut sig result endResult)
  else if sig.valType = .SP_FLOAT then
    match processIntegerSignal frame.data sig.startBit 32 false false with
    | none => .error .InsufficientFrameLength
    | some raw =>
      let result := toInt64 raw
      let endResult := qAdd (qMul (f32FromBits raw.toNat) sig.factor) sig.bias
      .ok (signalTextOut sig result endResult)
  else
    if frame.len < 8 then .error .InsufficientFrameLength
    else
      match processIntegerSignal frame.data 0 64 false false with
      | none => .error .InsufficientFrameLength
      | some raw =>
        let result := toInt64 raw
        let endResult := qAdd (qMul (f64FromBits raw.toNat) sig.factor) sig.bias
        .ok (signalTextOut sig result endResult)

/-- DBC_SIGNAL::processAsText (dbc_classes.cpp lines 39-122).  The STRING
branch comes first and returns the raw bytes before the multiplex block is
reached; every other type passes through the multiplex block and then the
per-type tail. -/
def processAsTextF (env : List DBC_SIGNAL) (fuel : Nat) (sig : DBC_SIGNAL)
    (frame : CANFrame) : Option (Except DBCError String) :=
  if sig.valType = .STRING then some (.ok (stringSignalText sig frame))
  else
    match resolveMultiplex env fuel sig frame with
    | none => none
    | some (.error e) => some (.error e)
    | some (.ok _) => some (processAsTextTail sig frame)

/-- The per-type decode of processAsDouble after the multiplex block
(dbc_classes.cpp lines 193-232).  The SP_FLOAT branch passes the literal
`false` as the byte-order argument of the extractor; the DP_FLOAT branch
extracts 64 bits starting at absolute bit 0. -/
def processAsDoubleTail (sig : DBC_SIGNAL) (frame : CANFrame) : Except DBCError ℚ :=
  if sig.valType = .SIGNED_INT ∨ sig.valType = .UNSIGNED_INT then
    if frame.len * 8 < sig.startBit + sig.signalSize then .error .InsufficientFrameLength
    else
      match processIntegerSignal frame.data sig.startBit sig.signalSize sig.intelByteOrder
          (sig.valType == .SIGNED_INT) with
      | none => .error .InsufficientFrameLength
      | some raw =>
        let result := toInt64 raw
        let endResult := qAdd (qMul (intQ result) sig.factor) sig.bias
        .ok endResult
  else if sig.valType = .SP_FLOAT then
    if frame.len * 8 < sig.startBit + 32 then .error .InsufficientFrameLength
    else
      match processIntegerSignal frame.data sig.startBit 32 false false with
      | none => .error .InsufficientFrameLength
      | some raw => .ok (qAdd (qMul (f32FromBits raw.toNat) sig.factor) sig.bias)
  else
    if frame.len < 8 then .error .InsufficientFrameLength
    else
      match processIntegerSignal frame.data 0 64 false false with
      | none => .error .InsufficientFrameLength
      | some raw => .ok (qAdd (qMul (f64FromBits raw.toNat) sig.factor) sig.bias)

/-- DBC_SIGNAL::processAsDouble (dbc_classes.cpp lines 170-236): STRING is
rejected first, then the multiplex block, then the per-type tail. -/
def processAsDoubleF (env : List DBC_SIGNAL) (fuel : Nat) (sig : DBC_SIGNAL)
    (frame : CANFrame) : Option (Except DBCError ℚ) :=
  if sig.valType = .STRING then some (.error .UnsupportedConversion)
  else
    match resolveMultiplex env fuel sig frame with
    | none => none
    | some (.error e) => some (.error e)
    | some (.ok _) => some (processAsDoubleTail sig frame)

/-- ASCII lower-casing of one character. -/
def charLower (c : Char) : Char :=
  if 65 ≤ c.toNat ∧ c.toNat ≤ 90 then Char.ofNat (c.toNat + 32) else c

/-- Modelled stand-in for QString::compare with Qt::CaseInsensitive:
equality after case folding. -/
def qStrEqCI (a b : String) : Bool :=
  a.data.map charLower == b.data.map charLower

/-- The scan loop of DBC_SIGNAL::findAttrValByName (dbc_classes.cpp lines
238-249). -/
def sigAttrScan (nm : String) : List DBC_ATTRIBUTE_VALUE → Option DBC_ATTRIBUTE_VALUE
  | [] => none
  | a :: rest => if qStrEqCI a.attrName nm then some a else sigAttrScan nm rest

/-- The scan loop of DBC_MESSAGE::findAttrValByName (dbc_classes.cpp lines
258-269). -/
def msgAttrScan (nm : String) : List DBC_ATTRIBUTE_VALUE → Option DBC_ATTRIBUTE_VALUE
  | [] => none
  | a :: rest => if qStrEqCI a.attrName nm then some a else msgAttrScan nm rest

/-- The scan loop of DBC_NODE::findAttrValByName (dbc_classes.cpp lines
278-289). -/
def nodeAttrScan (nm : String) : List DBC_ATTRIBUTE_VALUE → Option DBC_ATTRIBUTE_VALUE
  | [] => none
  | a :: rest => if qStrEqCI a.attrName nm then some a else nodeAttrScan nm rest

def DBC_SIGNAL.findAttrValByName (s : DBC_SIGNAL) (nm : String) : Option DBC_ATTRIBUTE_VALUE :=
  sigAttrScan nm s.attributes

def DBC_SIGNAL.findAttrValByIdx (s : DBC_SIGNAL) (idx : Int) : Option DBC_ATTRIBUTE_VALUE :=
  if idx < 0 then none
  else if (s.attributes.length : Int) ≤ idx then none
  else s.attributes[idx.toNat]?

def DBC_MESSAGE.findAttrValByName (m : DBC_MESSAGE) (nm : String) : Option DBC_ATTRIBUTE_VALUE :=
  msgAttrScan nm m.attributes

def DBC_MESSAGE.findAttrValByIdx (m : DBC_MESSAGE) (idx : Int) : Option DBC_ATTRIBUTE_VALUE :=
  if idx < 0 then none
  else if (m.attributes.length : Int) ≤ idx then none
  else m.attributes[idx.toNat]?

def DBC_NODE.findAttrValByName (n : DBC_NODE) (nm : String) : Option DBC_ATTRIBUTE_VALUE :=
  nodeAttrScan nm n.attributes

def DBC_NODE.findAttrValByIdx (n : DBC_NODE) (idx : Int) : Option DBC_ATTRIBUTE_VALUE :=
  if idx < 0 then none
  else if (n.attributes.length : Int) ≤ idx then none
  else n.attributes[idx.toNat]?

/-- processAsInt in the out-parameter shape of the C++ signature: the caller
supplies the current contents of the int32 out-variable and receives the
success flag together with the (possibly updated) variable.  Each
`return false` of the C++ leaves the out-variable untouched; the sub-decode
for the multiplexor is called on a fresh (uninitialized, modelled as 0)
variable exactly as the C++ declares a fresh local `int val`. -/
def processAsIntR (env : List DBC_SIGNAL) : Nat → DBC_SIGNAL → CANFrame → Int → Option (Bool × Int)
  | 0, _, _, _ => none
  | fuel + 1, sig, frame, outValue =>
    if sig.valType = .STRING ∨ sig.valType = .SP_FLOAT ∨ sig.valType = .DP_FLOAT then
      some (false, outValue)
    else if sig.isMultiplexed then
      match sig.muxorIdx with
      | none => some (false, outValue)
      | some i =>
        match env[i]? with
        | none => some (false, outValue)
        | some mux =>
          match processAsIntR env fuel mux frame 0 with
          | none => none
          | some (false, _) => some (false, outValue)
          | some (true, v) =>
            if v ≠ sig.multiplexValue then some (false, outValue)
            else
              match processAsIntTail sig frame with
              | .error _ => some (false, outValue)
              | .ok r => some (true, r)
    else
      match processAsIntTail sig frame with
      | .error _ => some (false, outValue)
      | .ok r => some (true, r)

/-- processAsText in the out-parameter shape of the C++ signature. -/
def processAsTextR (env : List DBC_SIGNAL) (fuel : Nat) (sig : DBC_SIGNAL)
    (frame : CANFrame) (outString : String) : Option (Bool × String) :=
  if sig.valType = .STRING then some (true, stringSignalText sig frame)
  else
    match resolveMultiplex env fuel sig frame with
    | none => none
    | some (.error _) => some (false, outString)
    | some (.ok _) =>
      match processAsTextTail sig frame with
      | .error _ => some (false, outString)
      | .ok sres => some (true, sres)

/-- processAsDouble in the out-parameter shape of the C++ signature. -/
def processAsDoubleR (env : List DBC_SIGNAL) (fuel : Nat) (sig : DBC_SIGNAL)
    (frame : CANFrame) (outValue : ℚ) : Option (Bool × ℚ) :=
  if sig.valType = .STRING then some (false, outValue)
  else
    match resolveMultiplex env fuel sig frame with
    | none => none
    | some (.error _) => some (false, outValue)
    | some (.ok _) =>
      match processAsDoubleTail sig frame with
      | .error _ => some (false, outValue)
      | .ok q => some (true, q)

/-- A decode call terminates when some finite fuel suffices for it to
return (the C++ recursion, which has no budget, reaches its base case). -/
def processAsIntTerminates (env : List DBC_SIGNAL) (sig : DBC_SIGNAL) (frame : CANFrame) : Prop :=
  ∃ fuel, (processAsIntF env fuel sig frame).isSome = true

theorem processAsIntF_ok_inv (env : List DBC_SIGNAL) (fuel : Nat) (sig : DBC_SIGNAL)
    (frame : CANFrame) (r : Int)
    (h : processAsIntF env fuel sig frame = some (.ok r)) :
    processAsIntTail sig frame = .ok r := by
  cases fuel with
  | zero => exact absurd h (by simp [processAsIntF])
  | succ n =>
    simp only [processAsIntF] at h
    repeat' split at h
    all_goals simp_all

theorem processAsTextF_ok_inv (env : List DBC_SIGNAL) (fuel : Nat) (sig : DBC_SIGNAL)
    (frame : CANFrame) (s : String) (hstr : sig.valType ≠ .STRING)
    (h : processAsTextF env fuel sig frame = some (.ok s)) :
    processAsTextTail sig frame = .ok s := by
  simp only [processAsTextF, if_neg hstr] at h
  repeat' split at h
  all_goals simp_all

theorem processAsDoubleF_ok_inv (env : List DBC_SIGNAL) (fuel : Nat) (sig : DBC_SIGNAL)
    (frame : CANFrame) (q : ℚ)
    (h : processAsDoubleF env fuel sig frame = some (.ok q)) :
    processAsDoubleTail sig frame = .ok q := by
  by_cases hstr : sig.valType = .STRING
  · simp [processAsDoubleF, hstr] at h
  · simp only [processAsDoubleF, if_neg hstr] at h
    repeat split at h
    all_goals simp_all

theorem processAsIntTail_short (sig : DBC_SIGNAL) (frame : CANFrame)
    (h : frame.len * 8 < sig.startBit + sig.signalSize) :
    processAsIntTail sig frame = .error .InsufficientFrameLength := by
  simp [processAsIntTail, h]

theorem processIntegerSignal_short (data : List UInt8) (startBit len : Nat)
    (io sg : Bool) (h : data.length * 8 < startBit + len) :
    processIntegerSignal data startBit len io sg = none := by
  have : ¬ (1 ≤ len ∧ len ≤ 64 ∧ startBit + len ≤ data.length * 8) := by omega
  simp [processIntegerSignal, this]

/-- Claim C3: decodeAsInt rejects STRING, SINGLE_FLOAT and DOUBLE_FLOAT with
UnsupportedConversion before any extraction; decodeAsDouble rejects exactly
STRING on type grounds: a non-multiplexed signal of any other value type
never fails with UnsupportedConversion. -/
theorem claim_C3_type_gating (env : List DBC_SIGNAL) (fuel : Nat) (sig : DBC_SIGNAL)
    (frame : CANFrame) :
    ((sig.valType = .STRING ∨ sig.valType = .SP_FLOAT ∨ sig.valType = .DP_FLOAT) →
       processAsIntF env (fuel + 1) sig frame = some (.error .UnsupportedConversion)) ∧
    (sig.valType = .STRING →
       processAsDoubleF env fuel sig frame = some (.error .UnsupportedConversion)) ∧
    (sig.valType ≠ .STRING → sig.isMultiplexed = false →
       processAsDoubleF env fuel sig frame ≠ some (.error .UnsupportedConversion)) := by
  refine ⟨fun h => ?_, fun h => ?_, fun hns hmx => ?_⟩
  · simp [processAsIntF, h]
  · simp [processAsDoubleF, h]
  · simp only [processAsDoubleF, if_neg hns, resolveMultiplex, hmx, if_neg (Bool.false_ne_true)]
    intro h
    have h2 : processAsDoubleTail sig frame = .error .UnsupportedConversion := by
      simpa using h
    revert h2
    simp only [processAsDoubleTail]
    repeat' split
    all_goals simp

def sigW3 : DBC_SIGNAL :=
  { name := "W3", startBit := 0, signalSize := 8, intelByteOrder := true,
    isMultiplexed := false, multiplexValue := 0, valType := .STRING,
    factor := 1, bias := 0, unitName := "", valList := [], attributes := [],
    muxorIdx := none }

/-- Witness for claim C3, at a STRING signal and a non-multiplexed
UNSIGNED_INT signal on a one-byte frame. -/
theorem claim_C3_witness :
    processAsIntF [] 1 sigW3 ⟨[7]⟩ = some (.error .UnsupportedConversion) ∧
    processAsDoubleF [] 1 sigW3 ⟨[7]⟩ = some (.error .UnsupportedConversion) ∧
    processAsDoubleF [] 1 { sigW3 with valType := .UNSIGNED_INT } ⟨[7]⟩ ≠
      some (.error .UnsupportedConversion) :=
  ⟨(claim_C3_type_gating [] 0 sigW3 ⟨[7]⟩).1 (Or.inl rfl),
   (claim_C3_type_gating [] 1 sigW3 ⟨[7]⟩).2.1 rfl,
   (claim_C3_type_gating [] 1 { sigW3 with valType := .UNSIGNED_INT } ⟨[7]⟩).2.2
     (by decide) rfl⟩

/-- Claim C5 (amended): for a STRING-type signal, processAsText returns the
raw copied bytes unconditionally — the STRING branch precedes the multiplex
block, so no multiplex check is applied: the result is entirely independent
of isMultiplexed and of the owning message's multiplexor. -/
theorem claim_C5_string_text (env : List DBC_SIGNAL) (fuel : Nat) (sig : DBC_SIGNAL)
    (frame : CANFrame) (h : sig.valType = .STRING) :
    processAsTextF env fuel sig frame = some (.ok (stringSignalText sig frame)) ∧
    (∀ b mi, processAsTextF env fuel { sig with isMultiplexed := b, muxorIdx := mi } frame =
             processAsTextF env fuel sig frame) := by
  constructor
  · simp [processAsTextF, h]
  · intro b mi
    simp [processAsTextF, h, stringSignalText]

def sigW5 : DBC_SIGNAL :=
  { name := "W5", startBit := 0, signalSize := 16, intelByteOrder := true,
    isMultiplexed := false, multiplexValue := 0, valType := .STRING,
    factor := 1, bias := 0, unitName := "", valList := [], attributes := [],
    muxorIdx := none }

/-- Witness for claim C5: a two-byte STRING signal returns the two raw
bytes as text. -/
theorem claim_C5_witness : processAsTextF [] 1 sigW5 ⟨[79, 75]⟩ = some (.ok "OK") :=
  ((claim_C5_string_text [] 1 sigW5 ⟨[79, 75]⟩ rfl).1).trans (by decide)

def sigC5 : DBC_SIGNAL :=
  { name := "C5", startBit := 0, signalSize := 16, intelByteOrder := true,
    isMultiplexed := true, multiplexValue := 4, valType := .STRING,
    factor := 1, bias := 0, unitName := "", valList := [], attributes := [],
    muxorIdx := none }

/-- Claim C5 counterexample: a multiplexed STRING signal whose owning
message has no multiplexor decodes successfully through processAsText (the
claim requires this decode to fail before returning any text). -/
theorem claim_C5_counterexample :
    sigC5.isMultiplexed = true ∧ sigC5.muxorIdx = none ∧
    processAsTextF [] 1 sigC5 ⟨[77, 88]⟩ = some (.ok "MX") := by decide

def sigC1 : DBC_SIGNAL :=
  { name := "C1", startBit := 0, signalSize := 16, intelByteOrder := true,
    isMultiplexed := true, multiplexValue := 2, valType := .STRING,
    factor := 1, bias := 0, unitName := "", valList := [], attributes := [],
    muxorIdx := none }

/-- Claim C1 counterexample: a multiplexed signal whose owning message has
no multiplexor is required by the claim to fail on every decode entry point,
but a STRING-typed one decodes successfully through processAsText. -/
theorem claim_C1_counterexample :
    sigC1.isMultiplexed = true ∧ sigC1.muxorIdx = none ∧
    processAsTextF [] 1 sigC1 ⟨[72, 73]⟩ = some (.ok "HI") := by decide

/-- Claim C1 (amended): multiplex gating for every decode entry point,
except that the STRING branch of processAsText returns before the multiplex
block and so escapes the gate.  For a multiplexed signal: (a) no designated
multiplexor means failure; (b) a failing multiplexor sub-decode means
failure (the propagated error for the entry points that reach the gate);
(c) a decoded multiplexor value different from the selector means
MultiplexMismatch for every entry point that reaches the gate; (d) a
matching value makes the decode agree with the ordinary (non-multiplexed)
decode of the same signal. -/
theorem claim_C1_multiplex_gating (env : List DBC_SIGNAL) (fuel : Nat) (sig : DBC_SIGNAL)
    (frame : CANFrame) (hmux : sig.isMultiplexed = true) :
    (sig.muxorIdx = none →
       (∃ e, processAsIntF env (fuel + 1) sig frame = some (.error e)) ∧
       (sig.valType ≠ .STRING →
          processAsTextF env fuel sig frame = some (.error .MultiplexUnavailable) ∧
          processAsDoubleF env fuel sig frame = some (.error .MultiplexUnavailable))) ∧
    (∀ i mux e, sig.muxorIdx = some i → env[i]? = some mux →
       processAsIntF env fuel mux frame = some (.error e) →
       (∃ e2, processAsIntF env (fuel + 1) sig frame = some (.error e2)) ∧
       (sig.valType ≠ .STRING →
          processAsTextF env fuel sig frame = some (.error e) ∧
          processAsDoubleF env fuel sig frame = some (.error e))) ∧
    (∀ i mux v, sig.muxorIdx = some i → env[i]? = some mux →
       processAsIntF env fuel mux frame = some (.ok v) → v ≠ sig.multiplexValue →
       ((sig.valType = .SIGNED_INT ∨ sig.valType = .UNSIGNED_INT) →
          processAsIntF env (fuel + 1) sig frame = some (.error .MultiplexMismatch)) ∧
       (sig.valType ≠ .STRING →
          processAsTextF env fuel sig frame = some (.error .MultiplexMismatch) ∧
          processAsDoubleF env fuel sig frame = some (.error .MultiplexMismatch))) ∧
    (∀ i mux, sig.muxorIdx = some i → env[i]? = some mux →
       processAsIntF env fuel mux frame = some (.ok sig.multiplexValue) →
       processAsIntF env (fuel + 1) sig frame =
         processAsIntF env (fuel + 1) { sig with isMultiplexed := false } frame ∧
       processAsTextF env fuel sig frame =
         processAsTextF env fuel { sig with isMultiplexed := false } frame ∧
       processAsDoubleF env fuel sig frame =
         processAsDoubleF env fuel { sig with isMultiplexed := false } frame) := by
  have hdemux : ∀ b : Bool, ({ sig with isMultiplexed := b } : DBC_SIGNAL).valType = sig.valType := by
    intro b; rfl
  refine ⟨fun hnone => ⟨?_, fun hstr => ⟨?_, ?_⟩⟩,
          fun i mux e h1 h2 h3 => ⟨?_, fun hstr => ⟨?_, ?_⟩⟩,
          fun i mux v h1 h2 h3 hne => ⟨fun hacc => ?_, fun hstr => ⟨?_, ?_⟩⟩,
          fun i mux h1 h2 h3 => ⟨?_, ?_, ?_⟩⟩
  · by_cases hty : sig.valType = .STRING ∨ sig.valType = .SP_FLOAT ∨ sig.valType = .DP_FLOAT
    · exact ⟨.UnsupportedConversion, by simp [processAsIntF, hty]⟩
    · exact ⟨.MultiplexUnavailable, by simp [processAsIntF, hty, hmux, hnone]⟩
  · simp [processAsTextF, hstr, resolveMultiplex, hmux, hnone]
  · have hs2 : sig.valType ≠ .STRING := hstr
    simp [processAsDoubleF, hs2, resolveMultiplex, hmux, hnone]
  · by_cases hty : sig.valType = .STRING ∨ sig.valType = .SP_FLOAT ∨ sig.valType = .DP_FLOAT
    · exact ⟨.UnsupportedConversion, by simp [processAsIntF, hty]⟩
    · exact ⟨e, by simp [processAsIntF, hty, hmux, h1, h2, h3]⟩
  · simp [processAsTextF, hstr, resolveMultiplex, hmux, h1, h2, h3]
  · simp [processAsDoubleF, hstr, resolveMultiplex, hmux, h1, h2, h3]
  · have hty : ¬ (sig.valType = .STRING ∨ sig.valType = .SP_FLOAT ∨ sig.valType = .DP_FLOAT) := by
      rcases hacc with h | h <;> simp [h]
    simp [processAsIntF, hty, hmux, h1, h2, h3, hne]
  · simp [processAsTextF, hstr, resolveMultiplex, hmux, h1, h2, h3, hne]
  · simp [processAsDoubleF, hstr, resolveMultiplex, hmux, h1, h2, h3, hne]
  · by_cases hty : sig.valType = .STRING ∨ sig.valType = .SP_FLOAT ∨ sig.valType = .DP_FLOAT
    · simp [processAsIntF, hty]
    · simp [processAsIntF, hty, hmux, h1, h2, h3]
      rfl
  · by_cases hstr : sig.valType = .STRING
    · simp [processAsTextF, hstr, stringSignalText]
    · simp [processAsTextF, hstr, resolveMultiplex, hmux, h1, h2, h3]
      rfl
  · by_cases hstr : sig.valType = .STRING
    · simp [processAsDoubleF, hstr]
    · simp [processAsDoubleF, hstr, resolveMultiplex, hmux, h1, h2, h3]
      rfl

def sigW1M : DBC_SIGNAL :=
  { name := "W1M", startBit := 0, signalSize := 8, intelByteOrder := true,
    isMultiplexed := false, multiplexValue := 0, valType := .UNSIGNED_INT,
    factor := 1, bias := 0, unitName := "", valList := [], attributes := [],
    muxorIdx := none }

def sigW1 : DBC_SIGNAL :=
  { name := "W1", startBit := 8, signalSize := 8, intelByteOrder := true,
    isMultiplexed := true, multiplexValue := 3, valType := .UNSIGNED_INT,
    factor := 1, bias := 0, unitName := "", valList := [], attributes := [],
    muxorIdx := some 0 }

/-- Witness for claim C1: with a multiplexor that decodes to the selector
value 3, the multiplexed decode agrees with the ordinary decode, and with a
frame where it decodes to 5 instead, the decode fails with
MultiplexMismatch. -/
theorem claim_C1_witness :
    processAsIntF [sigW1M] 2 sigW1 ⟨[3, 42]⟩ =
      processAsIntF [sigW1M] 2 { sigW1 with isMultiplexed := false } ⟨[3, 42]⟩ ∧
    processAsIntF [sigW1M] 2 sigW1 ⟨[5, 42]⟩ = some (.error .MultiplexMismatch) :=
  ⟨((claim_C1_multiplex_gating [sigW1M] 1 sigW1 ⟨[3, 42]⟩ rfl).2.2.2 0 sigW1M rfl rfl
      (by decide)).1,
   ((claim_C1_multiplex_gating [sigW1M] 1 sigW1 ⟨[5, 42]⟩ rfl).2.2.1 0 sigW1M 5 rfl rfl
      (by decide) (by decide)).1 (Or.inr rfl)⟩

/-- Claim C2 (amended): a decode never succeeds when the bit range it
actually guards is not available — processAsInt for every value type under
the claim's condition startBit+signalSize > 8*len; the integer paths of
processAsText and processAsDouble under the same condition; the SINGLE_FLOAT
paths under startBit+32 > 8*len (the 32 bits actually read); the
DOUBLE_FLOAT paths under len < 8 (bits 0..63 are what is read).  The STRING
branch of processAsText performs no such check (see the counterexample). -/
theorem claim_C2_short_frame (env : List DBC_SIGNAL) (fuel : Nat) (sig : DBC_SIGNAL)
    (frame : CANFrame) :
    (frame.len * 8 < sig.startBit + sig.signalSize →
       ∀ r, processAsIntF env fuel sig frame ≠ some (.ok r)) ∧
    ((sig.valType = .SIGNED_INT ∨ sig.valType = .UNSIGNED_INT) →
       frame.len * 8 < sig.startBit + sig.signalSize →
       (∀ s, processAsTextF env fuel sig frame ≠ some (.ok s)) ∧
       (∀ q, processAsDoubleF env fuel sig frame ≠ some (.ok q))) ∧
    (sig.valType = .SP_FLOAT → frame.len * 8 < sig.startBit + 32 →
       (∀ s, processAsTextF env fuel sig frame ≠ some (.ok s)) ∧
       (∀ q, processAsDoubleF env fuel sig frame ≠ some (.ok q))) ∧
    (sig.valType = .DP_FLOAT → frame.len < 8 →
       (∀ s, processAsTextF env fuel sig frame ≠ some (.ok s)) ∧
       (∀ q, processAsDoubleF env fuel sig frame ≠ some (.ok q))) := by
  refine ⟨fun hlt r h => ?_,
          fun hty hlt => ⟨fun s h => ?_, fun q h => ?_⟩,
          fun hty hlt => ⟨fun s h => ?_, fun q h => ?_⟩,
          fun hty hlt => ⟨fun s h => ?_, fun q h => ?_⟩⟩
  · have ht := processAsIntF_ok_inv env fuel sig frame r h
    rw [processAsIntTail_short sig frame hlt] at ht
    exact Except.noConfusion ht
  · have hstr : sig.valType ≠ .STRING := by rcases hty with h2 | h2 <;> simp [h2]
    have ht := processAsTextF_ok_inv env fuel sig frame s hstr h
    have hext := processIntegerSignal_short frame.data sig.startBit sig.signalSize
      sig.intelByteOrder (sig.valType == .SIGNED_INT) hlt
    simp [processAsTextTail, hty, hext] at ht
  · have ht := processAsDoubleF_ok_inv env fuel sig frame q h
    simp [processAsDoubleTail, hty, hlt] at ht
  · have hstr : sig.valType ≠ .STRING := by simp [hty]
    have ht := processAsTextF_ok_inv env fuel sig frame s hstr h
    have hext := processIntegerSignal_short frame.data sig.startBit 32 false false hlt
    simp [processAsTextTail, hty, hext] at ht
  · have ht := processAsDoubleF_ok_inv env fuel sig frame q h
    simp [processAsDoubleTail, hty, hlt] at ht
  · have hstr : sig.valType ≠ .STRING := by simp [hty]
    have ht := processAsTextF_ok_inv env fuel sig frame s hstr h
    simp [processAsTextTail, hty, hlt] at ht
  · have ht := processAsDoubleF_ok_inv env fuel sig frame q h
    simp [processAsDoubleTail, hty, hlt] at ht

def sigC2 : DBC_SIGNAL :=
  { name := "C2", startBit := 0, signalSize := 16, intelByteOrder := true,
    isMultiplexed := false, multiplexValue := 0, valType := .STRING,
    factor := 1, bias := 0, unitName := "", valList := [], attributes := [],
    muxorIdx := none }

/-- Claim C2 counterexample: a STRING signal asking for bits 0..15 on a
one-byte frame (bit range exceeds the frame) still decodes successfully via
processAsText, the second copied byte being read past the end of the
provided byte sequence. -/
theorem claim_C2_counterexample :
    (⟨[65]⟩ : CANFrame).len * 8 < sigC2.startBit + sigC2.signalSize ∧
    processAsTextF [] 1 sigC2 ⟨[65]⟩ =
      some (.ok (String.mk [Char.ofNat 65, Char.ofNat 0])) := by decide

def sigW2 : DBC_SIGNAL :=
  { name := "W2", startBit := 0, signalSize := 16, intelByteOrder := true,
    isMultiplexed := false, multiplexValue := 0, valType := .UNSIGNED_INT,
    factor := 1, bias := 0, unitName := "", valList := [], attributes := [],
    muxorIdx := none }

/-- Witness for claim C2: a 16-bit integer signal on a one-byte frame never
decodes successfully. -/
theorem claim_C2_witness : processAsIntF [] 1 sigW2 ⟨[1]⟩ ≠ some (.ok 1) :=
  (claim_C2_short_frame [] 1 sigW2 ⟨[1]⟩).1 (by decide) 1

/-- Claim C8 (amended): the multiplex recursion of processAsInt has no
depth bound in the code; it terminates exactly when the multiplexor chain
grounds out.  Termination holds whenever the signal is not multiplexed, is
rejected on type grounds, has no designated multiplexor, or has a dangling
multiplexor reference, and it propagates from the multiplexor to the
dependent signal; a cyclic chain does not terminate (see the
counterexample). -/
theorem claim_C8_termination (env : List DBC_SIGNAL) (sig : DBC_SIGNAL) (frame : CANFrame) :
    (sig.isMultiplexed = false → processAsIntTerminates env sig frame) ∧
    ((sig.valType = .STRING ∨ sig.valType = .SP_FLOAT ∨ sig.valType = .DP_FLOAT) →
       processAsIntTerminates env sig frame) ∧
    (sig.muxorIdx = none → processAsIntTerminates env sig frame) ∧
    (∀ i, sig.muxorIdx = some i → env[i]? = none → processAsIntTerminates env sig frame) ∧
    (∀ i mux, sig.muxorIdx = some i → env[i]? = some mux →
       processAsIntTerminates env mux frame → processAsIntTerminates env sig frame) := by
  refine ⟨fun h => ⟨1, ?_⟩, fun h => ⟨1, ?_⟩, fun h => ⟨1, ?_⟩, fun i h1 h2 => ⟨1, ?_⟩,
          fun i mux h1 h2 ht => ?_⟩
  · by_cases hty : sig.valType = .STRING ∨ sig.valType = .SP_FLOAT ∨ sig.valType = .DP_FLOAT <;>
      simp [processAsIntF, h, hty]
  · simp [processAsIntF, h]
  · by_cases hty : sig.valType = .STRING ∨ sig.valType = .SP_FLOAT ∨ sig.valType = .DP_FLOAT
    · simp [processAsIntF, hty]
    · by_cases hm : sig.isMultiplexed <;> simp [processAsIntF, hty, hm, h]
  · by_cases hty : sig.valType = .STRING ∨ sig.valType = .SP_FLOAT ∨ sig.valType = .DP_FLOAT
    · simp [processAsIntF, hty]
    · by_cases hm : sig.isMultiplexed <;> simp [processAsIntF, hty, hm, h1, h2]
  · obtain ⟨n, hn⟩ := ht
    rcases Option.isSome_iff_exists.mp hn with ⟨val, hval⟩
    refine ⟨n + 1, ?_⟩
    by_cases hty : sig.valType = .STRING ∨ sig.valType = .SP_FLOAT ∨ sig.valType = .DP_FLOAT
    · simp [processAsIntF, hty]
    · by_cases hm : sig.isMultiplexed
      · cases val with
        | error e => simp [processAsIntF, hty, hm, h1, h2, hval]
        | ok v =>
          simp only [processAsIntF, if_neg hty, hm, if_pos rfl, h1, h2, hval]
          repeat' split
          all_goals simp
      · simp [processAsIntF, hty, hm]

def sigC8 : DBC_SIGNAL :=
  { name := "C8", startBit := 0, signalSize := 8, intelByteOrder := true,
    isMultiplexed := true, multiplexValue := 0, valType := .UNSIGNED_INT,
    factor := 1, bias := 0, unitName := "", valList := [], attributes := [],
    muxorIdx := some 0 }

/-- Claim C8 counterexample: a signal that is its own multiplexor — a
cyclic multiplex chain, expressible in the data model — never terminates:
no finite recursion budget makes the decode return. -/
theorem claim_C8_counterexample :
    ¬ processAsIntTerminates [sigC8] sigC8 ⟨[0]⟩ := by
  have hall : ∀ n, processAsIntF [sigC8] n sigC8 ⟨[0]⟩ = none := by
    intro n
    induction n with
    | zero => rfl
    | succ k ih =>
      simp [processAsIntF, ih, show sigC8.valType = DBC_SIG_VAL_TYPE.UNSIGNED_INT from rfl,
        show sigC8.isMultiplexed = true from rfl, show sigC8.muxorIdx = some 0 from rfl]
  rintro ⟨n, hn⟩
  rw [hall n] at hn
  simp at hn

def sigW8 : DBC_SIGNAL :=
  { name := "W8", startBit := 0, signalSize := 8, intelByteOrder := true,
    isMultiplexed := false, multiplexValue := 0, valType := .UNSIGNED_INT,
    factor := 1, bias := 0, unitName := "", valList := [], attributes := [],
    muxorIdx := none }

/-- Witness for claim C8: a non-multiplexed signal's decode terminates. -/
theorem claim_C8_witness : processAsIntTerminates [] sigW8 ⟨[1]⟩ :=
  (claim_C8_termination [] sigW8 ⟨[1]⟩).1 rfl

/-- Claim C10: failure atomicity of the out-parameter interface — whenever
processAsText, processAsInt or processAsDouble reports failure (returns
false), the caller-supplied output variable is returned unchanged; the
output is written only on success. -/
theorem claim_C10_failure_atomicity (env : List DBC_SIGNAL) (fuel : Nat) (sig : DBC_SIGNAL)
    (frame : CANFrame) (oi : Int) (os : String) (od : ℚ) :
    (∀ v, processAsIntR env fuel sig frame oi = some (false, v) → v = oi) ∧
    (∀ s, processAsTextR env fuel sig frame os = some (false, s) → s = os) ∧
    (∀ q, processAsDoubleR env fuel sig frame od = some (false, q) → q = od) := by
  refine ⟨fun v h => ?_, fun s h => ?_, fun q h => ?_⟩
  · cases fuel with
    | zero => simp [processAsIntR] at h
    | succ n =>
      simp only [processAsIntR] at h
      repeat' split at h
      all_goals simp_all
  · simp only [processAsTextR] at h
    repeat' split at h
    all_goals simp_all
  · simp only [processAsDoubleR] at h
    repeat' split at h
    all_goals simp_all

/-- Witness for claim C10: processAsInt on a STRING signal fails and hands
back the out-variable's prior contents (5) unchanged. -/
theorem claim_C10_witness :
    processAsIntR [] 1 sigW3 ⟨[7]⟩ 5 = some (false, 5) ∧ (5 : Int) = 5 :=
  ⟨by decide, (claim_C10_failure_atomicity [] 1 sigW3 ⟨[7]⟩ 5 "" 0).1 5 (by decide)⟩

theorem sigAttrScan_eq_find (nm : String) (l : List DBC_ATTRIBUTE_VALUE) :
    sigAttrScan nm l = l.find? (fun a => qStrEqCI a.attrName nm) := by
  induction l with
  | nil => rfl
  | cons a rest ih =>
    by_cases h : qStrEqCI a.attrName nm
    · simp [sigAttrScan, h, List.find?_cons_of_pos]
    · simp only [sigAttrScan, if_neg h, ih]
      rw [List.find?_cons_of_neg]
      simpa using h

theorem msgAttrScan_eq_find (nm : String) (l : List DBC_ATTRIBUTE_VALUE) :
    msgAttrScan nm l = l.find? (fun a => qStrEqCI a.attrName nm) := by
  induction l with
  | nil => rfl
  | cons a rest ih =>
    by_cases h : qStrEqCI a.attrName nm
    · simp [msgAttrScan, h, List.find?_cons_of_pos]
    · simp only [msgAttrScan, if_neg h, ih]
      rw [List.find?_cons_of_neg]
      simpa using h

theorem nodeAttrScan_eq_find (nm : String) (l : List DBC_ATTRIBUTE_VALUE) :
    nodeAttrScan nm l = l.find? (fun a => qStrEqCI a.attrName nm) := by
  induction l with
  | nil => rfl
  | cons a rest ih =>
    by_cases h : qStrEqCI a.attrName nm
    · simp [nodeAttrScan, h, List.find?_cons_of_pos]
    · simp only [nodeAttrScan, if_neg h, ih]
      rw [List.find?_cons_of_neg]
      simpa using h

/-- Claim C9: the attribute lookups of signal, message and node entities
are extensionally identical; findAttrValByName returns the first entry (in
list order) whose name matches case-insensitively, and none otherwise
(characterized through List.find?); findAttrValByIdx returns the entry at
position idx exactly when 0 ≤ idx < length, and none otherwise. -/
theorem claim_C9_attr_lookup (s : DBC_SIGNAL) (m : DBC_MESSAGE) (nd : DBC_NODE)
    (nm : String) (idx : Int)
    (hsm : s.attributes = m.attributes) (hmn : m.attributes = nd.attributes) :
    s.findAttrValByName nm = m.findAttrValByName nm ∧
    m.findAttrValByName nm = nd.findAttrValByName nm ∧
    s.findAttrValByIdx idx = m.findAttrValByIdx idx ∧
    m.findAttrValByIdx idx = nd.findAttrValByIdx idx ∧
    s.findAttrValByName nm = s.attributes.find? (fun a => qStrEqCI a.attrName nm) ∧
    s.findAttrValByIdx idx =
      (if 0 ≤ idx ∧ idx < (s.attributes.length : Int) then s.attributes[idx.toNat]? else none) := by
  refine ⟨?_, ?_, ?_, ?_, ?_, ?_⟩
  · simp [DBC_SIGNAL.findAttrValByName, DBC_MESSAGE.findAttrValByName,
      sigAttrScan_eq_find, msgAttrScan_eq_find, hsm]
  · simp [DBC_MESSAGE.findAttrValByName, DBC_NODE.findAttrValByName,
      msgAttrScan_eq_find, nodeAttrScan_eq_find, hmn]
  · simp [DBC_SIGNAL.findAttrValByIdx, DBC_MESSAGE.findAttrValByIdx, hsm]
  · simp [DBC_MESSAGE.findAttrValByIdx, DBC_NODE.findAttrValByIdx, hmn]
  · simp [DBC_SIGNAL.findAttrValByName, sigAttrScan_eq_find]
  · by_cases h1 : idx < 0
    · rw [DBC_SIGNAL.findAttrValByIdx, if_pos h1, if_neg (by omega)]
    · by_cases h2 : (s.attributes.length : Int) ≤ idx
      · rw [DBC_SIGNAL.findAttrValByIdx, if_neg h1, if_pos h2, if_neg (by omega)]
      · rw [DBC_SIGNAL.findAttrValByIdx, if_neg h1, if_neg h2, if_pos (by omega)]

def sigW9 : DBC_SIGNAL :=
  { name := "W9", startBit := 0, signalSize := 8, intelByteOrder := true,
    isMultiplexed := false, multiplexValue := 0, valType := .UNSIGNED_INT,
    factor := 1, bias := 0, unitName := "",
    valList := [], attributes := [⟨"Foo", "1"⟩, ⟨"bar", "2"⟩], muxorIdx := none }

def msgW9 : DBC_MESSAGE := { attributes := [⟨"Foo", "1"⟩, ⟨"bar", "2"⟩] }

def nodeW9 : DBC_NODE := { attributes := [⟨"Foo", "1"⟩, ⟨"bar", "2"⟩] }

/-- Witness for claim C9 at concrete entities sharing a two-entry
attribute list, with a case-insensitive name query and an index query. -/
theorem claim_C9_witness :
    sigW9.findAttrValByName "FOO" = msgW9.findAttrValByName "FOO" ∧
    sigW9.findAttrValByIdx 1 =
      (if 0 ≤ (1 : Int) ∧ (1 : Int) < (sigW9.attributes.length : Int)
       then sigW9.attributes[(1 : Int).toNat]? else none) :=
  ⟨(claim_C9_attr_lookup sigW9 msgW9 nodeW9 "FOO" 1 rfl rfl).1,
   (claim_C9_attr_lookup sigW9 msgW9 nodeW9 "FOO" 1 rfl rfl).2.2.2.2.2⟩

/-- Claim C4: for a DOUBLE_FLOAT signal (that passes the multiplex gate),
decodeAsDouble and decodeAsText fail with InsufficientFrameLength when the
frame is shorter than 8 bytes, and otherwise always extract the full 64
bits starting at absolute bit 0 — the result is independent of the signal's
configured startBit and byte order — reinterpret that pattern as an
IEEE-754 double and apply *factor+bias. -/
theorem claim_C4_double_float (env : List DBC_SIGNAL) (fuel : Nat) (sig : DBC_SIGNAL)
    (frame : CANFrame) (hty : sig.valType = .DP_FLOAT) (hmx : sig.isMultiplexed = false) :
    (frame.len < 8 →
       processAsDoubleF env fuel sig frame = some (.error .InsufficientFrameLength) ∧
       processAsTextF env fuel sig frame = some (.error .InsufficientFrameLength)) ∧
    (8 ≤ frame.len →
       ∀ raw, processIntegerSignal frame.data 0 64 false false = some raw →
         processAsDoubleF env fuel sig frame =
           some (.ok (qAdd (qMul (f64FromBits raw.toNat) sig.factor) sig.bias)) ∧
         processAsTextF env fuel sig frame =
           some (.ok (signalTextOut sig (toInt64 raw)
             (qAdd (qMul (f64FromBits raw.toNat) sig.factor) sig.bias)))) ∧
    (∀ sb bo,
       processAsDoubleF env fuel { sig with startBit := sb, intelByteOrder := bo } frame =
         processAsDoubleF env fuel sig frame ∧
       processAsTextF env fuel { sig with startBit := sb, intelByteOrder := bo } frame =
         processAsTextF env fuel sig frame) := by
  have hstr : sig.valType ≠ .STRING := by simp [hty]
  refine ⟨fun hlt => ⟨?_, ?_⟩, fun hge raw hraw => ⟨?_, ?_⟩, fun sb bo => ⟨?_, ?_⟩⟩
  · simp [processAsDoubleF, hstr, resolveMultiplex, hmx, processAsDoubleTail, hty, hlt]
  · simp [processAsTextF, hstr, resolveMultiplex, hmx, processAsTextTail, hty, hlt]
  · simp [processAsDoubleF, hstr, resolveMultiplex, hmx, processAsDoubleTail, hty, hraw,
      show ¬ frame.len < 8 by omega]
  · simp [processAsTextF, hstr, resolveMultiplex, hmx, processAsTextTail, hty, hraw,
      show ¬ frame.len < 8 by omega]
  · simp [processAsDoubleF, hstr, resolveMultiplex, hmx, processAsDoubleTail, hty]
  · simp [processAsTextF, hstr, resolveMultiplex, hmx, processAsTextTail, hty]
    rfl

def sigW4 : DBC_SIGNAL :=
  { name := "W4", startBit := 40, signalSize := 64, intelByteOrder := true,
    isMultiplexed := false, multiplexValue := 0, valType := .DP_FLOAT,
    factor := 1, bias := 0, unitName := "", valList := [], attributes := [],
    muxorIdx := none }

set_option maxRecDepth 100000 in
/-- Witness for claim C4: an all-zero eight-byte frame decodes (despite the
signal's startBit of 40) to the double decoded from bit pattern 0. -/
theorem claim_C4_witness :
    processAsDoubleF [] 1 sigW4 ⟨[0, 0, 0, 0, 0, 0, 0, 0]⟩ =
      some (.ok (qAdd (qMul (f64FromBits (Int.toNat 0)) sigW4.factor) sigW4.bias)) :=
  (((claim_C4_double_float [] 1 sigW4 ⟨[0, 0, 0, 0, 0, 0, 0, 0]⟩ rfl rfl).2.1
    (by decide) 0 (by decide)).1)

/-- Claim C6 (amended): for a SINGLE_FLOAT signal (that passes the
multiplex gate) decodeAsDouble requires startBit+32 ≤ frame bit length and
extracts 32 bits at the configured startBit, but with the byte-order
argument hardwired to false (Motorola addressing) rather than the signal's
configured byte order — the result is independent of intelByteOrder —
then reinterprets the pattern as an IEEE-754 single and applies
*factor+bias. -/
theorem claim_C6_single_float (env : List DBC_SIGNAL) (fuel : Nat) (sig : DBC_SIGNAL)
    (frame : CANFrame) (hty : sig.valType = .SP_FLOAT) (hmx : sig.isMultiplexed = false) :
    (frame.len * 8 < sig.startBit + 32 →
       processAsDoubleF env fuel sig frame = some (.error .InsufficientFrameLength)) ∧
    (sig.startBit + 32 ≤ frame.len * 8 →
       ∀ raw, processIntegerSignal frame.data sig.startBit 32 false false = some raw →
         processAsDoubleF env fuel sig frame =
           some (.ok (qAdd (qMul (f32FromBits raw.toNat) sig.factor) sig.bias))) ∧
    (∀ bo, processAsDoubleF env fuel { sig with intelByteOrder := bo } frame =
           processAsDoubleF env fuel sig frame) := by
  have hstr : sig.valType ≠ .STRING := by simp [hty]
  refine ⟨fun hlt => ?_, fun hge raw hraw => ?_, fun bo => ?_⟩
  · simp [processAsDoubleF, hstr, resolveMultiplex, hmx, processAsDoubleTail, hty, hlt]
  · simp [processAsDoubleF, hstr, resolveMultiplex, hmx, processAsDoubleTail, hty, hraw,
      show ¬ frame.len * 8 < sig.startBit + 32 by omega]
  · simp [processAsDoubleF, hstr, resolveMultiplex, hmx, processAsDoubleTail, hty]

def sigC6 : DBC_SIGNAL :=
  { name := "C6", startBit := 0, signalSize := 32, intelByteOrder := true,
    isMultiplexed := false, multiplexValue := 0, valType := .SP_FLOAT,
    factor := 1, bias := 0, unitName := "", valList := [], attributes := [],
    muxorIdx := none }

/-- Claim C6 counterexample: an Intel-configured SINGLE_FLOAT signal on
frame [1,0,0,0] decodes to 0 (the Motorola extraction picks up bit pattern
0x80000000, negative zero), not to the value obtained from the Intel
extraction of the same 32 bits (pattern 1, the smallest denormal) that the
claim requires. -/
theorem claim_C6_counterexample :
    sigC6.intelByteOrder = true ∧
    processAsDoubleF [] 1 sigC6 ⟨[1, 0, 0, 0]⟩ = some (.ok 0) ∧
    processAsDoubleF [] 1 sigC6 ⟨[1, 0, 0, 0]⟩ ≠
      some (.ok (qAdd (qMul (f32FromBits
          ((processIntegerSignal [1, 0, 0, 0] sigC6.startBit 32 sigC6.intelByteOrder
            false).getD 0).toNat) sigC6.factor) sigC6.bias)) := by decide

def sigW6 : DBC_SIGNAL :=
  { name := "W6", startBit := 0, signalSize := 32, intelByteOrder := false,
    isMultiplexed := false, multiplexValue := 0, valType := .SP_FLOAT,
    factor := 1, bias := 0, unitName := "", valList := [], attributes := [],
    muxorIdx := none }

/-- Witness for claim C6: frame [0,127,0,0] carries bit pattern 0x3F800000
(the single-precision 1.0) under the hardwired Motorola extraction. -/
theorem claim_C6_witness :
    processAsDoubleF [] 1 sigW6 ⟨[0, 127, 0, 0]⟩ =
      some (.ok (qAdd (qMul (f32FromBits (Int.toNat 1065353216)) sigW6.factor) sigW6.bias)) :=
  (claim_C6_single_float [] 1 sigW6 ⟨[0, 127, 0, 0]⟩ rfl rfl).2.1 (by decide)
    1065353216 (by decide)

/-- Claim C7 (amended): in a successful non-STRING processAsText decode the
output is the signal name, ": ", and either a value-table match or the
rendered scaled number followed by the unit; the value-table key compared
against is the truncated post-scale integer for the two integer types, but
for SINGLE_FLOAT and DOUBLE_FLOAT it is the raw extracted bit pattern (the
C++ only reassigns `result` in the integer branch); the lookup takes the
first matching entry in list order. -/
theorem claim_C7_value_table (env : List DBC_SIGNAL) (fuel : Nat) (sig : DBC_SIGNAL)
    (frame : CANFrame) (out : String)
    (hok : processAsTextF env fuel sig frame = some (.ok out)) :
    ((sig.valType = .SIGNED_INT ∨ sig.valType = .UNSIGNED_INT) →
       ∀ raw, processIntegerSignal frame.data sig.startBit sig.signalSize sig.intelByteOrder
           (sig.valType == .SIGNED_INT) = some raw →
         out = signalTextOut sig
           (toInt64 (truncQ (qAdd (qMul (intQ (toInt64 raw)) sig.factor) sig.bias)))
           (qAdd (qMul (intQ (toInt64 raw)) sig.factor) sig.bias)) ∧
    (sig.valType = .SP_FLOAT →
       ∀ raw, processIntegerSignal frame.data sig.startBit 32 false false = some raw →
         out = signalTextOut sig (toInt64 raw)
           (qAdd (qMul (f32FromBits raw.toNat) sig.factor) sig.bias)) ∧
    (sig.valType = .DP_FLOAT →
       ∀ raw, processIntegerSignal frame.data 0 64 false false = some raw →
         out = signalTextOut sig (toInt64 raw)
           (qAdd (qMul (f64FromBits raw.toNat) sig.factor) sig.bias)) ∧
    (∀ res endR, signalTextOut sig res endR =
       match sig.valList.find? (fun v => v.value == res) with
       | some v => sig.name ++ ": " ++ v.descript
       | none => sig.name ++ ": " ++ qstringNumber endR ++ sig.unitName) := by
  refine ⟨fun hty raw hraw => ?_, fun hty raw hraw => ?_, fun hty raw hraw => ?_,
          fun res endR => rfl⟩
  · have hstr : sig.valType ≠ .STRING := by rcases hty with h2 | h2 <;> simp [h2]
    have ht := processAsTextF_ok_inv env fuel sig frame out hstr hok
    simp only [processAsTextTail, if_pos hty, hraw] at ht
    simpa using ht.symm
  · have hstr : sig.valType ≠ .STRING := by simp [hty]
    have ht := processAsTextF_ok_inv env fuel sig frame out hstr hok
    simp only [processAsTextTail, hty, hraw] at ht
    simp at ht
    exact ht.symm
  · have hstr : sig.valType ≠ .STRING := by simp [hty]
    have ht := processAsTextF_ok_inv env fuel sig frame out hstr hok
    by_cases hlt : frame.len < 8
    · simp [processAsTextTail, hty, hlt] at ht
    · simp only [processAsTextTail, hty, hraw, if_neg hlt] at ht
      simp at ht
      exact ht.symm

def sigC7 : DBC_SIGNAL :=
  { name := "S", startBit := 0, signalSize := 32, intelByteOrder := false,
    isMultiplexed := false, multiplexValue := 0, valType := .SP_FLOAT,
    factor := 1, bias := 0, unitName := "",
    valList := [⟨1065353216, "X"⟩], attributes := [], muxorIdx := none }

/-- Claim C7 counterexample: a SINGLE_FLOAT signal whose frame carries the
bit pattern 0x3F800000 (value 1.0, truncated post-scale integer 1).  The
value table has no entry with key 1, so per the claim the output must be
the rendered number and unit — but the code matches the table entry keyed
by the raw bit pattern 1065353216 and outputs its description. -/
theorem claim_C7_counterexample :
    processAsTextF [] 1 sigC7 ⟨[0, 127, 0, 0]⟩ = some (.ok "S: X") ∧
    truncQ (qAdd (qMul (f32FromBits 1065353216) sigC7.factor) sigC7.bias) = 1 ∧
    sigC7.valList.find? (fun v => v.value == (1 : Int)) = none ∧
    "S: X" ≠ sigC7.name ++ ": " ++
      qstringNumber (qAdd (qMul (f32FromBits 1065353216) sigC7.factor) sigC7.bias) ++
      sigC7.unitName := by decide

def sigW7 : DBC_SIGNAL :=
  { name := "W7", startBit := 0, signalSize := 8, intelByteOrder := true,
    isMultiplexed := false, multiplexValue := 0, valType := .UNSIGNED_INT,
    factor := 1, bias := 0, unitName := "u",
    valList := [⟨0, "OFF"⟩, ⟨1, "ON"⟩], attributes := [], muxorIdx := none }

/-- Witness for claim C7: raw byte 1 with factor 1, bias 0 and value list
[(0,OFF),(1,ON)] renders as the table description ON. -/
theorem claim_C7_witness :
    ("W7: ON" : String) = signalTextOut sigW7
      (toInt64 (truncQ (qAdd (qMul (intQ (toInt64 1)) sigW7.factor) sigW7.bias)))
      (qAdd (qMul (intQ (toInt64 1)) sigW7.factor) sigW7.bias) :=
  (claim_C7_value_table [] 1 sigW7 ⟨[1]⟩ "W7: ON" (by decide)).1 (Or.inr rfl) 1 (by decide)
